import Mathlib

/-!
Verification development for the bitescript-rtc signaling server.

The definitions below are a shallow embedding of the connection/room runtime
of the repository.  The primary model follows `src/ws/wsServer.ts`
(the monolithic `createWsServer` wired by `server.ts`); the modular twins
`src/ws/handlers/messageHandler.ts` and `src/utils/wsHelpers.ts` implement the
same logic for the branches modelled here, and divergences between the
generations are noted where they matter.  Machine integers are `Nat`
(versions only grow by 1 from 0, no overflow concern), JS nullish and
truthiness tests on strings are modelled explicitly, JS object identity for
sockets is modelled by a `ref : Nat` field, and `Set`/`Map` iteration order is
modelled by insertion-ordered lists, matching JS semantics.
-/

namespace RtcModel

/-- A connection record: the fields the server attaches to each WebSocket
client object (`WebSocketClient` in `wsServer.ts`).  `ref` models JS object
identity; `isOpen` models `readyState === WS.OPEN`. -/
structure Conn where
  ref : Nat
  id : String
  userId : Option String
  roomId : Option String
  isOpen : Bool
  ip : String
  userAgent : String
  origin : String
deriving DecidableEq, Repr

/-- Authoritative room document (`RoomDoc` in `wsServer.ts`): version counter,
text, and the members set (`clients`, a JS `Set` of socket objects, modelled
as the insertion-ordered list of their refs). -/
structure RoomDoc where
  version : Nat
  text : String
  clients : List Nat
deriving DecidableEq, Repr

/-- Server state: `activeConnections` (which also serves as the table
resolving a socket ref to the socket's current fields) and the `rooms` map in
insertion order. -/
structure ServerState where
  conns : List Conn
  rooms : List (String × RoomDoc)
deriving DecidableEq, Repr

/-- Peer descriptor as built by `getPeers`. -/
structure PeerInfo where
  id : String
  userAgent : String
  ip : String
  origin : String
  roomId : Option String
deriving DecidableEq, Repr

/-- JS truthiness test for an optional string: `undefined`/`null` and the
empty string are falsy. -/
def jsFalsyStr : Option String → Bool
  | none => true
  | some s => s.isEmpty

/-- JS nullish coalescing `a ?? b` for optional strings. -/
def jsNullish (a b : Option String) : Option String :=
  match a with
  | some x => some x
  | none => b

/-- Outbound frames, by shape, as constructed by `wsServer.ts`.  Timestamps
(`Date.now()`) are wall-clock values and are omitted; `from` is `"server"`
except for `cursorMsg` and `signal`, whose author id is carried explicitly. -/
inductive OutMsg where
  | errorMsg (message : String)
  | joined (roomId : String) (roomVersion : Nat) (peers : List String)
  | doc (roomId : Option String) (version : Nat) (text : String)
  | docUpdated (roomId : String) (version : Nat) (text : String) (author : String)
  | updateRejected (roomId : Option String) (currentVersion : Option Nat) (text : String)
  | peersUpdated (peers : List PeerInfo) (count : Nat) (total : Nat)
  | peersSnapshot (peers : List PeerInfo)
  | cursorMsg (roomId : String) (userId : String) (cursor : Option String) (selection : Option String)
  | signal (t : String) (fromId : String) (payload : String) (target : Option String)
  | leftMsg
  | echo (raw : String)
deriving DecidableEq, Repr

/-- Inbound message object: the fields the dispatcher reads off the parsed
JSON value.  `sigPayload` stands for the opaque `payload` object forwarded
verbatim by the signaling branch, `raw` for the raw JSON text echoed by the
fallback branch. -/
structure InMsg where
  type_ : String
  payloadRoomId : Option String
  payloadRoom : Option String
  msgRoomId : Option String
  payloadUserId : Option String
  text : Option String
  baseVersion : Option Nat
  msgTo : Option String
  payloadTo : Option String
  cursor : Option String
  selection : Option String
  sigPayload : String
  raw : String
deriving DecidableEq, Repr

/-- Resolve a socket ref in the connection table. -/
def lookupConn (conns : List Conn) (ref : Nat) : Option Conn :=
  conns.find? fun c => c.ref == ref

/-- Mutate the fields of the socket object with the given ref. -/
def setConn (conns : List Conn) (ref : Nat) (f : Conn → Conn) : List Conn :=
  conns.map fun c => if c.ref == ref then f c else c

/-- Room lookup (`rooms.get(roomId)`). -/
def lookupRoom (rooms : List (String × RoomDoc)) (rid : String) : Option RoomDoc :=
  (rooms.find? fun p => p.1 == rid).map fun p => p.2

/-- Replace the entry of an existing room. -/
def setRoom (rooms : List (String × RoomDoc)) (rid : String) (d : RoomDoc) :
    List (String × RoomDoc) :=
  rooms.map fun p => if p.1 == rid then (rid, d) else p

/-- Room creation part of `getOrCreateRoom`: ensure an entry exists,
initialized with version 0, empty text and no members. -/
def getOrCreateRoom (rooms : List (String × RoomDoc)) (rid : String) :
    List (String × RoomDoc) :=
  match lookupRoom rooms rid with
  | some _ => rooms
  | none => rooms ++ [(rid, { version := 0, text := "", clients := [] })]

/-- JS `Set.prototype.add` on the members set. -/
def addClient (d : RoomDoc) (ref : Nat) : RoomDoc :=
  if ref ∈ d.clients then d else { d with clients := d.clients ++ [ref] }

/-- The room filter used by `getPeers` and `broadcastPeersUpdate`:
`if (roomId && client.roomId !== roomId) continue` — a falsy `roomId`
disables the filter. -/
def roomFilter (roomId : Option String) (c : Conn) : Bool :=
  if jsFalsyStr roomId then true else c.roomId == roomId

/-- Peer descriptor of a connection: `id` is `userId ?? clientId`. -/
def mkPeer (c : Conn) : PeerInfo :=
  { id := c.userId.getD c.id, userAgent := c.userAgent, ip := c.ip,
    origin := c.origin, roomId := c.roomId }

/-- `getPeers` of `wsServer.ts` (lines 88-104): one descriptor per open
connection passing the room filter, in `activeConnections` order.  (The
`wsHelpers.ts` variant additionally deduplicates by descriptor id; see the
presence theorems.) -/
def getPeers (st : ServerState) (roomId : Option String) : List PeerInfo :=
  st.conns.filterMap fun c =>
    if c.isOpen && roomFilter roomId c then some (mkPeer c) else none

/-- The recipient id used when computing `count`: `client.userId ?? client.id`. -/
def connPeerId (c : Conn) : String :=
  c.userId.getD c.id

/-- `getPeers` of `wsHelpers.ts` (lines 13-37): same room filter, but the
descriptors are collected in a `Map` keyed by the peer id
(`userId ?? clientId`), so connections sharing an id collapse into a single
entry (first connection wins, insertion order preserved). -/
def getPeersHelpers (st : ServerState) (roomId : Option String) : List PeerInfo :=
  st.conns.foldl (fun acc c =>
    if c.isOpen && roomFilter roomId c && !(acc.any fun p => p.id == connPeerId c) then
      acc ++ [mkPeer c]
    else acc) []

/-- `broadcastPeersUpdate` of `wsServer.ts` (lines 106-136): sends a
`peers-updated` frame with the full peer list, a per-recipient `count`
(entries whose id differs from the recipient's id) and `total` to every open
connection passing the room filter. -/
def broadcastPeersUpdate (st : ServerState) (roomId : Option String) :
    List (Nat × OutMsg) :=
  let peers := getPeers st roomId
  let total := peers.length
  st.conns.filterMap fun c =>
    if c.isOpen && roomFilter roomId c then
      some (c.ref, OutMsg.peersUpdated peers
        ((peers.filter fun p => p.id ≠ connPeerId c).length) total)
    else none

/-- The author/user id stamped on update and cursor frames:
`payload.userId ?? ws.userId ?? ws.id` (always defined). -/
def authorOf (ws : Conn) (m : InMsg) : String :=
  (jsNullish (jsNullish m.payloadUserId ws.userId) (some ws.id)).getD ws.id

/-- `sendToClient`: send only when the target socket is open. -/
def sendToClient (c : Conn) (msg : OutMsg) : List (Nat × OutMsg) :=
  if c.isOpen then [(c.ref, msg)] else []

/-- `broadcastToRoom`: send to every open member of the room except the
optional excluded socket.  Members are resolved through the connection
table (in JS the set holds the socket objects themselves). -/
def broadcastToRoom (st : ServerState) (rid : String) (msg : OutMsg)
    (except : Option Nat) : List (Nat × OutMsg) :=
  match lookupRoom st.rooms rid with
  | none => []
  | some room =>
    room.clients.filterMap fun ref =>
      if except == some ref then none
      else
        match lookupConn st.conns ref with
        | some c => if c.isOpen then some (ref, msg) else none
        | none => none

/-- `removeClientFromRoom` of `wsServer.ts` (lines 162-177): remove the
socket from its current room's members, broadcast presence for that room,
then delete the room if it became empty. -/
def removeClientFromRoom (st : ServerState) (c : Conn) :
    ServerState × List (Nat × OutMsg) :=
  if jsFalsyStr c.roomId then (st, [])
  else
    let rid := c.roomId.getD ""
    match lookupRoom st.rooms rid with
    | none => (st, [])
    | some room =>
      let room1 : RoomDoc := { room with clients := room.clients.filter fun r => r != c.ref }
      let rooms1 := setRoom st.rooms rid room1
      let st1 : ServerState := { st with rooms := rooms1 }
      let msgs := broadcastPeersUpdate st1 (some rid)
      let rooms2 :=
        if room1.clients.isEmpty then rooms1.filter fun p => p.1 != rid else rooms1
      ({ st with rooms := rooms2 }, msgs)

/-- The join branch (`wsServer.ts` lines 266-308, identical in
`messageHandler.ts` lines 39-84 apart from the extra `roomManager` mirror):
resolve the requested room, set `ws.roomId` and `ws.userId`, add the socket
to the room's members, reply `joined` and `doc`, then broadcast presence for
the old and the new room. -/
def handleJoin (st : ServerState) (sref : Nat) (m : InMsg) :
    ServerState × List (Nat × OutMsg) :=
  match lookupConn st.conns sref with
  | none => (st, [])
  | some ws =>
    let oldRoom := ws.roomId
    let newRoom := jsNullish (jsNullish (jsNullish m.payloadRoomId m.payloadRoom) m.msgRoomId) ws.roomId
    if jsFalsyStr newRoom then
      (st, sendToClient ws (OutMsg.errorMsg "join requires roomId"))
    else
      let nr := newRoom.getD ""
      let conns1 := setConn st.conns sref fun c =>
        { c with roomId := some nr,
                 userId := jsNullish (jsNullish m.payloadUserId c.userId) (some c.id) }
      let rooms1 := getOrCreateRoom st.rooms nr
      let room := (lookupRoom rooms1 nr).getD { version := 0, text := "", clients := [] }
      let room1 := addClient room sref
      let rooms2 := setRoom rooms1 nr room1
      let st1 : ServerState := { conns := conns1, rooms := rooms2 }
      let peerIds := room1.clients.map fun r =>
        match lookupConn conns1 r with
        | some c => c.userId.getD c.id
        | none => ""
      (st1,
        sendToClient ws (OutMsg.joined nr room1.version peerIds) ++
        sendToClient ws (OutMsg.doc (some nr) room1.version room1.text) ++
        broadcastPeersUpdate st1 oldRoom ++
        broadcastPeersUpdate st1 (some nr))

/-- The get-peers branch: reply with a snapshot scoped to
`payload.roomId ?? ws.roomId`. -/
def handleGetPeers (st : ServerState) (sref : Nat) (m : InMsg) :
    ServerState × List (Nat × OutMsg) :=
  match lookupConn st.conns sref with
  | none => (st, [])
  | some ws =>
    (st, sendToClient ws (OutMsg.peersSnapshot (getPeers st (jsNullish m.payloadRoomId ws.roomId))))

/-- The get-doc / request-doc branch. -/
def handleGetDoc (st : ServerState) (sref : Nat) (m : InMsg) :
    ServerState × List (Nat × OutMsg) :=
  match lookupConn st.conns sref with
  | none => (st, [])
  | some ws =>
    let roomId := jsNullish m.payloadRoomId ws.roomId
    if jsFalsyStr roomId then
      (st, sendToClient ws (OutMsg.doc none 0 ""))
    else
      let rid := roomId.getD ""
      let rooms1 := getOrCreateRoom st.rooms rid
      let room := (lookupRoom rooms1 rid).getD { version := 0, text := "", clients := [] }
      ({ st with rooms := rooms1 },
        sendToClient ws (OutMsg.doc (some rid) room.version room.text))

/-- The update branch (`wsServer.ts` lines 348-387, identical in
`messageHandler.ts` lines 124-159): accepted when `baseVersion` is nullish or
equals the room's current version; then version is incremented by 1, text
replaced, and `doc-updated` is broadcast to the whole room (no exclusion);
otherwise the sender alone gets `update-rejected` with the authoritative
state. -/
def handleUpdate (st : ServerState) (sref : Nat) (m : InMsg) :
    ServerState × List (Nat × OutMsg) :=
  match lookupConn st.conns sref with
  | none => (st, [])
  | some ws =>
    let roomId := jsNullish m.payloadRoomId ws.roomId
    if jsFalsyStr roomId then
      (st, sendToClient ws (OutMsg.updateRejected none none ""))
    else
      let rid := roomId.getD ""
      let rooms1 := getOrCreateRoom st.rooms rid
      let room := (lookupRoom rooms1 rid).getD { version := 0, text := "", clients := [] }
      let author := authorOf ws m
      if m.baseVersion = none ∨ m.baseVersion = some room.version then
        let room1 : RoomDoc := { room with version := room.version + 1, text := m.text.getD "" }
        let rooms2 := setRoom rooms1 rid room1
        let st1 : ServerState := { st with rooms := rooms2 }
        (st1, broadcastToRoom st1 rid
          (OutMsg.docUpdated rid room1.version room1.text author) none)
      else
        ({ st with rooms := rooms1 },
          sendToClient ws (OutMsg.updateRejected (some rid) (some room.version) room.text))

/-- The cursor branch: broadcast to the room, excluding the sender. -/
def handleCursor (st : ServerState) (sref : Nat) (m : InMsg) :
    ServerState × List (Nat × OutMsg) :=
  match lookupConn st.conns sref with
  | none => (st, [])
  | some ws =>
    let roomId := jsNullish m.payloadRoomId ws.roomId
    if jsFalsyStr roomId then (st, [])
    else
      let rid := roomId.getD ""
      (st, broadcastToRoom st rid
        (OutMsg.cursorMsg rid (authorOf ws m) m.cursor m.selection) (some sref))

/-- Find the first member of the given members list whose `userId` or `id`
matches the target id (`Array.from(room.clients).find(...)`). -/
def findInClients (st : ServerState) (clients : List Nat) (t : String) : Option Conn :=
  clients.findSome? fun ref =>
    match lookupConn st.conns ref with
    | some c => if c.userId == some t || c.id == t then some c else none
    | none => none

/-- Find the first active connection whose `userId` or `id` matches the
target id (the global fallback search). -/
def findGlobal (st : ServerState) (t : String) : Option Conn :=
  st.conns.find? fun c => c.userId == some t || c.id == t

/-- The signaling branch for offer / answer / ice-candidate / ice
(`wsServer.ts` lines 410-459): stamp `from = ws.userId ?? ws.id`; with a
truthy `to`, look the target up in the sender's room first, then among all
active connections; deliver directly if an open target was found, otherwise
fall back to broadcasting to the sender's room excluding the sender.  Without
`to`, broadcast to the sender's room excluding the sender. -/
def handleSignaling (st : ServerState) (sref : Nat) (m : InMsg) :
    ServerState × List (Nat × OutMsg) :=
  match lookupConn st.conns sref with
  | none => (st, [])
  | some ws =>
    let fromId := ws.userId.getD ws.id
    let toId := jsNullish (jsNullish m.msgTo m.payloadTo) m.payloadTo
    let roomBroadcast : List (Nat × OutMsg) :=
      if jsFalsyStr ws.roomId then []
      else broadcastToRoom st (ws.roomId.getD "")
        (OutMsg.signal m.type_ fromId m.sigPayload none) (some sref)
    if jsFalsyStr toId then
      (st, roomBroadcast)
    else
      let t := toId.getD ""
      let roomTarget :=
        if jsFalsyStr ws.roomId then none
        else
          match lookupRoom st.rooms (ws.roomId.getD "") with
          | some room => findInClients st room.clients t
          | none => none
      let target :=
        match roomTarget with
        | some c => some c
        | none => findGlobal st t
      match target with
      | some tc =>
        if tc.isOpen then
          (st, sendToClient tc (OutMsg.signal m.type_ fromId m.sigPayload (some t)))
        else
          (st, roomBroadcast)
      | none => (st, roomBroadcast)

/-- The leave branch: remove from the current room (which broadcasts presence
for it), null the room field, acknowledge with `left`, and broadcast presence
for the former room again. -/
def handleLeave (st : ServerState) (sref : Nat) :
    ServerState × List (Nat × OutMsg) :=
  match lookupConn st.conns sref with
  | none => (st, [])
  | some ws =>
    let prevRoom := ws.roomId
    let (st1, msgs1) := removeClientFromRoom st ws
    let conns2 := setConn st1.conns sref fun c => { c with roomId := none }
    let st2 : ServerState := { st1 with conns := conns2 }
    (st2, msgs1 ++ sendToClient ws OutMsg.leftMsg ++ broadcastPeersUpdate st2 prevRoom)

/-- The fallback branch (`wsServer.ts` lines 471-493): re-broadcast the raw
message to every other open connection; when both the sender and the
candidate recipient have a truthy room, only same-room recipients receive it. -/
def handleFallback (st : ServerState) (sref : Nat) (raw : String) :
    List (Nat × OutMsg) :=
  match lookupConn st.conns sref with
  | none => []
  | some ws =>
    st.conns.filterMap fun c =>
      if c.ref == sref then none
      else if !c.isOpen then none
      else if !(jsFalsyStr ws.roomId) && !(jsFalsyStr c.roomId) then
        (if c.roomId == ws.roomId then some (c.ref, OutMsg.echo raw) else none)
      else some (c.ref, OutMsg.echo raw)

/-- The branches of the dispatcher's if/else chain, in source order. -/
inductive Branch where
  | join | getPeers | getDoc | update | cursor | signaling | leave | fallback
deriving DecidableEq, Repr

/-- Which branch of the dispatcher a message type selects (the if/else chain
of the `message` listener in `wsServer.ts`, same recognized types as
`messageHandler.ts`). -/
def dispatch (t : String) : Branch :=
  if t = "join-room" ∨ t = "join" then Branch.join
  else if t = "get-peers" then Branch.getPeers
  else if t = "get-doc" ∨ t = "request-doc" then Branch.getDoc
  else if t = "update" then Branch.update
  else if t = "cursor" then Branch.cursor
  else if t = "offer" ∨ t = "answer" ∨ t = "ice-candidate" ∨ t = "ice" then Branch.signaling
  else if t = "leave" then Branch.leave
  else Branch.fallback

/-- The full message dispatcher: route a parsed message to its branch. -/
def handleMessage (st : ServerState) (sref : Nat) (m : InMsg) :
    ServerState × List (Nat × OutMsg) :=
  match dispatch m.type_ with
  | Branch.join => handleJoin st sref m
  | Branch.getPeers => handleGetPeers st sref m
  | Branch.getDoc => handleGetDoc st sref m
  | Branch.update => handleUpdate st sref m
  | Branch.cursor => handleCursor st sref m
  | Branch.signaling => handleSignaling st sref m
  | Branch.leave => handleLeave st sref
  | Branch.fallback => (st, handleFallback st sref m.raw)

end RtcModel

namespace RtcModel

/-- Helper: replacing an existing room's entry makes it the lookup result. -/
theorem lookupRoom_setRoom_self (rooms : List (String × RoomDoc)) (rid : String) (d : RoomDoc)
    (h : (lookupRoom rooms rid).isSome = true) :
    lookupRoom (setRoom rooms rid d) rid = some d := by
  induction rooms with
  | nil => simp [lookupRoom] at h
  | cons p ps ih =>
    by_cases hp : p.1 = rid
    · simp [lookupRoom, setRoom, List.find?_cons, hp]
    · have h' : (lookupRoom ps rid).isSome = true := by
        simpa [lookupRoom, List.find?_cons, hp] using h
      simpa [lookupRoom, setRoom, List.find?_cons, hp] using ih h'

/-- Helper: a `filterMap` contains no hits of a value no element maps to. -/
theorem count_filterMap_eq_zero {α β : Type} [BEq β] [LawfulBEq β] (f : α → Option β) (l : List α)
    (b : β) (h : ∀ x ∈ l, f x ≠ some b) : (l.filterMap f).count b = 0 := by
  rw [List.count_eq_zero]
  intro hmem
  obtain ⟨x, hx, hfx⟩ := List.mem_filterMap.1 hmem
  exact h x hx hfx

/-- Helper: a `filterMap` over a duplicate-free list hits a value exactly once
when exactly one element maps to it. -/
theorem count_filterMap_eq_one {α β : Type} [BEq β] [LawfulBEq β] (f : α → Option β)
    (l : List α) (hnd : l.Nodup) (a : α) (ha : a ∈ l) (b : β) (hfa : f a = some b)
    (hinj : ∀ x ∈ l, f x = some b → x = a) : (l.filterMap f).count b = 1 := by
  induction l with
  | nil => cases ha
  | cons x xs ih =>
    rcases List.mem_cons.1 ha with rfl | ha'
    · rw [List.filterMap_cons, hfa]
      have hz : (xs.filterMap f).count b = 0 := by
        refine count_filterMap_eq_zero f xs b ?_
        intro y hy hfy
        have hya : y = a := hinj y (List.mem_cons_of_mem _ hy) hfy
        exact (List.nodup_cons.1 hnd).1 (hya ▸ hy)
      simp [List.count_cons, hz]
    · have hax : a ≠ x := by
        intro h
        exact (List.nodup_cons.1 hnd).1 (h ▸ ha')
      have hfx : f x ≠ some b := by
        intro h
        exact hax ((hinj x (List.mem_cons_self x xs) h).symm)
      have hrec := ih (List.nodup_cons.1 hnd).2 ha'
        (fun y hy hfy => hinj y (List.mem_cons_of_mem _ hy) hfy)
      rw [List.filterMap_cons]
      cases hfx' : f x with
      | none => simpa using hrec
      | some b' =>
        have hbb : b' ≠ b := fun h => hfx (h ▸ hfx')
        simpa [List.count_cons, hbb] using hrec

/-- Helper: a connection found by ref carries that ref. -/
theorem lookupConn_ref (conns : List Conn) (ref : Nat) (c : Conn)
    (h : lookupConn conns ref = some c) : c.ref = ref := by
  have hp := List.find?_some h
  simpa using hp

/-- Helper: unfolding of `broadcastToRoom` when the room exists. -/
theorem broadcastToRoom_eq (conns : List Conn) (rooms : List (String × RoomDoc))
    (rid : String) (msg : OutMsg) (except : Option Nat) (room : RoomDoc)
    (h : lookupRoom rooms rid = some room) :
    broadcastToRoom (ServerState.mk conns rooms) rid msg except =
      room.clients.filterMap (fun ref =>
        if except == some ref then none
        else
          match lookupConn conns ref with
          | some c => if c.isOpen then some (ref, msg) else none
          | none => none) := by
  unfold broadcastToRoom
  rw [show lookupRoom (ServerState.mk conns rooms).rooms rid = some room from h]

/-- Helper: `findSome?` returns the image of the unique element on which the
function fires. -/
theorem findSome?_eq_of_unique {α β : Type} (f : α → Option β) (l : List α) (a : α) (b : β)
    (ha : a ∈ l) (hfa : f a = some b) (huniq : ∀ x ∈ l, (f x).isSome = true → x = a) :
    l.findSome? f = some b := by
  induction l with
  | nil => cases ha
  | cons x xs ih =>
    by_cases hx : x = a
    · subst hx
      simp [List.findSome?_cons, hfa]
    · cases hfx : f x with
      | some b' =>
        exact absurd (huniq x (List.mem_cons_self x xs) (by simp [hfx])) hx
      | none =>
        have ha' : a ∈ xs := by
          rcases List.mem_cons.1 ha with rfl | h
          · exact absurd rfl hx
          · exact h
        simpa [List.findSome?_cons, hfx] using
          ih ha' (fun y hy hsy => huniq y (List.mem_cons_of_mem _ hy) hsy)

end RtcModel

/-- Helper: a nonempty string is not `isEmpty`. -/
theorem strNonempty (u : String) (hu : u ≠ "") : u.isEmpty = false := by
  rw [Bool.eq_false_iff]
  intro h
  exact hu ((String.isEmpty_iff u).mp h)

/-- Helper: `List.isSuffixOf` as an explicit decomposition. -/
theorem suffix_exists_iff (l₁ l₂ : List Char) :
    l₁.isSuffixOf l₂ = true ↔ ∃ t, t ++ l₁ = l₂ := by
  have h : l₁.isSuffixOf l₂ = true ↔ l₁ <:+ l₂ := by simp [List.isSuffixOf]
  exact h

namespace UpgradeOrigin

/-- Per-entry origin test of the upgrade handler's CORS check
(`upgradeHandler.ts` lines 19-32, identical in `wsServer.ts` lines 546-559):
a `*` entry admits everything, a missing/empty Origin is rejected, otherwise
the Origin's hostname must equal the allowed hostname or end with `.` +
the allowed hostname.  Hostnames are modelled as their character lists (the
`new URL(...).hostname` extraction is outside the model); JS
`String.prototype.endsWith` is list-suffix. -/
def allowsOrigin (a o : List Char) : Bool :=
  a == ['*'] || (!o.isEmpty && (o == a || ('.' :: a).isSuffixOf o))

/-- The `allowedOrigins.some(...)` fold over the allow-list. -/
def isAllowedOrigin (allowed : List (List Char)) (o : List Char) : Bool :=
  allowed.any fun a => allowsOrigin a o

/-- Outcome of the origin check in production mode with a non-wildcard
allow-list: `forbidden` stands for writing `HTTP/1.1 403 Forbidden` and
destroying the socket, `proceed` for falling through to the token check. -/
inductive UpgradeDecision where
  | proceed | forbidden
deriving DecidableEq, Repr

/-- The origin gate as run when `NODE_ENV` is production and the allow-list's
first entry is not `*`. -/
def originGate (allowed : List (List Char)) (o : List Char) : UpgradeDecision :=
  if isAllowedOrigin allowed o then UpgradeDecision.proceed else UpgradeDecision.forbidden

/-- Modelled from the spec's words (claim C5): the Origin hostname is a
single-level subdomain of the allowed hostname, i.e. one extra nonempty
dot-free label in front of `.` + the allowed hostname. -/
def IsSingleLevelSubdomain (o a : List Char) : Prop :=
  ∃ l, l ≠ [] ∧ '.' ∉ l ∧ o = l ++ '.' :: a

/-- Modelled from the spec's words (claim C5): admission as the claim states
it — exact hostname match or single-level subdomain of an allowed hostname. -/
def ClaimAdmits (allowed : List (List Char)) (o : List Char) : Prop :=
  ∃ a ∈ allowed, o = a ∨ IsSingleLevelSubdomain o a

end UpgradeOrigin

namespace WsJwt

/-- The identity-bearing claims of a decoded token payload (`src/auth/jwt.ts`).
Only string-valued claims are modelled; `none` is an absent claim. -/
structure Claims where
  sub : Option String
  userId : Option String
  uid : Option String
deriving DecidableEq, Repr

/-- JS truthiness of an optional string claim. -/
def jsTruthy (a : Option String) : Bool :=
  !(RtcModel.jsFalsyStr a)

/-- JS logical-or `a || b` on optional string claims. -/
def jsOrStr (a b : Option String) : Option String :=
  if jsTruthy a then a else b

/-- Result of token verification, reduced to the extracted user id. -/
inductive VerifyResult where
  | ok (userId : String)
  | fail (reason : String)
deriving DecidableEq, Repr

/-- Identity extraction of `verifyWsToken` (`jwt.ts` lines 39-69), given that
`jwt.verify` succeeded on a correctly signed, unexpired token whose payload
decoded to an object with the given claims: `const userId = decoded.sub ||
decoded.userId`, hard-failing with `missing_user_identifier` when falsy. -/
def verifyWsTokenClaims (c : Claims) : VerifyResult :=
  let userId := jsOrStr c.sub c.userId
  if jsTruthy userId then VerifyResult.ok (userId.getD "")
  else VerifyResult.fail "missing_user_identifier"

/-- Identity extraction of `verifyWsTokenStrict` (`jwt.ts` lines 126-142):
`const userId = decoded.sub ?? decoded.userId ?? decoded.uid`, hard-failing
with `missing_user_identifier` when falsy. -/
def verifyWsTokenStrictClaims (c : Claims) : VerifyResult :=
  let userId := RtcModel.jsNullish (RtcModel.jsNullish c.sub c.userId) c.uid
  if jsTruthy userId then VerifyResult.ok (userId.getD "")
  else VerifyResult.fail "missing_user_identifier"

end WsJwt

namespace MsgGate

/-- A raw inbound WebSocket frame, as seen by the `message` listener of
`src/ws/handlers/connection.ts`: its byte length, and the result of
`JSON.parse` on its text (`none` when parsing throws or the parsed value is
not an object; the JSON grammar itself is outside the model). -/
structure RawFrame where
  bytes : Nat
  parsed : Option RtcModel.InMsg
deriving DecidableEq, Repr

/-- `safeParse` of `src/utils/safeParse.ts`: `null` when the frame exceeds
`maxSizeBytes`, otherwise the `JSON.parse` result. -/
def safeParse (maxSizeBytes : Nat) (raw : RawFrame) : Option RtcModel.InMsg :=
  if raw.bytes > maxSizeBytes then none else raw.parsed

/-- The default `maxSizeBytes` of `safeParse`: 64 * 1024. -/
def defaultMaxSize : Nat := 64 * 1024

/-- Capacity of the per-client message limiter (`RateLimiterMemory` with
`points: 100`, `duration: 10` seconds, `blockDuration: 60` seconds).  The
within-window model has no refill; refill timing is wall-clock. -/
def points : Nat := 100

/-- Consumed points per key / message counts per key (a JS `Map`). -/
def mapGet (l : List (String × Nat)) (k : String) : Nat :=
  ((l.find? fun p => p.1 == k).map fun p => p.2).getD 0

/-- Update a key's counter in a JS `Map`. -/
def mapSet (l : List (String × Nat)) (k : String) (v : Nat) : List (String × Nat) :=
  if (l.find? fun p => p.1 == k).isSome then
    l.map fun p => if p.1 == k then (k, v) else p
  else l ++ [(k, v)]

/-- Gate-level mutable state of `connection.ts`: the limiter's consumed
points per clientId, and the `clientMessageRates` analytics map. -/
structure GateState where
  limiter : List (String × Nat)
  rates : List (String × Nat)
deriving DecidableEq, Repr

/-- The error frame sent on a rate-limit breach (`connection.ts` lines
185-195): fields `type`, `from`, `error` (a prose message), `retryAfter`. -/
structure RateLimitErrorFrame where
  type_ : String
  fromId : String
  error : String
  retryAfter : Nat
deriving DecidableEq, Repr

/-- `retryAfter`: `Math.ceil(msBeforeNext / 1000)`, or 60 when `msBeforeNext`
is falsy. -/
def retryAfterOf (msBeforeNext : Nat) : Nat :=
  if msBeforeNext = 0 then 60 else (msBeforeNext + 999) / 1000

/-- The rate-limit error frame constructed by `connection.ts`. -/
def mkRateLimitErrorFrame (msBeforeNext : Nat) : RateLimitErrorFrame :=
  { type_ := "error", fromId := "server",
    error := "Rate limit exceeded. Please try again later.",
    retryAfter := retryAfterOf msBeforeNext }

/-- Gate output: either a dispatched/parse-error frame or the rate-limit
error frame (sent with a bare `ws.send`, hence no open check). -/
inductive GateOut where
  | frame (recipient : Nat) (msg : RtcModel.OutMsg)
  | rateLimited (recipient : Nat) (f : RateLimitErrorFrame)
deriving DecidableEq, Repr

/-- The `message` listener of `connection.ts` (lines 139-254): parse via
`safeParse` (a null or non-object result throws into the catch block, which
replies with a generic error frame through `sendToClient`; the random
`requestId` field is omitted); then consume the per-clientId limiter — on
breach reply with the rate-limit error frame and stop; otherwise bump the
analytics counter and dispatch the message.  The dispatcher is a parameter
so that the gate's guarantees hold for any dispatch function; `msBeforeNext`
is the library-reported wait time. -/
def onFrame
    (dispatch : RtcModel.ServerState → Nat → RtcModel.InMsg →
      RtcModel.ServerState × List (Nat × RtcModel.OutMsg))
    (st : RtcModel.ServerState) (g : GateState) (sref : Nat) (raw : RawFrame)
    (msBeforeNext : Nat) :
    RtcModel.ServerState × GateState × List GateOut :=
  match RtcModel.lookupConn st.conns sref with
  | none => (st, g, [])
  | some ws =>
    match safeParse defaultMaxSize raw with
    | none =>
      (st, g, (RtcModel.sendToClient ws (RtcModel.OutMsg.errorMsg "Error processing message")).map
        fun p => GateOut.frame p.1 p.2)
    | some m =>
      if mapGet g.limiter ws.id < points then
        let g1 : GateState :=
          { limiter := mapSet g.limiter ws.id (mapGet g.limiter ws.id + 1),
            rates := mapSet g.rates ws.id (mapGet g.rates ws.id + 1) }
        let r := dispatch st sref m
        (r.1, g1, r.2.map fun p => GateOut.frame p.1 p.2)
      else
        (st, g, [GateOut.rateLimited sref (mkRateLimitErrorFrame msBeforeNext)])

end MsgGate

section ClaimOne

/-- A fresh connection as registered by the upgrade path: open, unjoined,
no identity beyond its client id. -/
def c1Conn : RtcModel.Conn :=
  { ref := 1, id := "s1", userId := none, roomId := none, isOpen := true,
    ip := "127.0.0.1", userAgent := "ua", origin := "http://localhost:3000" }

/-- Reachable server state right after the single connection connects. -/
def c1St0 : RtcModel.ServerState := { conns := [c1Conn], rooms := [] }

/-- A join frame naming the given room. -/
def c1JoinMsg (r : String) : RtcModel.InMsg :=
  { type_ := "join", payloadRoomId := some r, payloadRoom := none, msgRoomId := none,
    payloadUserId := none, text := none, baseVersion := none, msgTo := none,
    payloadTo := none, cursor := none, selection := none, sigPayload := "", raw := "" }

/-- State after the connection joins room r1. -/
def c1St1 : RtcModel.ServerState := (RtcModel.handleMessage c1St0 1 (c1JoinMsg "r1")).1

/-- State after the same connection then joins room r2. -/
def c1St2 : RtcModel.ServerState := (RtcModel.handleMessage c1St1 1 (c1JoinMsg "r2")).1

/-- C1: the claim states that a connection appears in at most one room's
members set, the second join implicitly leaving the old room.  The code
violates this: after joining r1 and then r2, the connection (ref 1) is still
in r1's members while also in r2's members — the join branch updates
`ws.roomId` and adds to the new room's `clients` but never deletes the socket
from the old room's `clients`.  This theorem evaluates the dispatcher on that
failing input. -/
theorem C1_second_join_keeps_stale_membership :
    RtcModel.lookupRoom c1St2.rooms "r1" = some { version := 0, text := "", clients := [1] } ∧
    RtcModel.lookupRoom c1St2.rooms "r2" = some { version := 0, text := "", clients := [1] } ∧
    (RtcModel.lookupConn c1St2.conns 1).map RtcModel.Conn.roomId = some (some "r2") := by
  decide

end ClaimOne

section ClaimSix

/-- C6 counterexample: the claim asserts that some token carrying only the
`uid` claim verifies successfully with userId = uid; in fact `verifyWsToken`
reads only `sub || userId`, so no uid-only token is ever accepted. -/
theorem C6_uid_only_never_accepted :
    ¬ ∃ u : String, WsJwt.verifyWsTokenClaims ⟨none, none, some u⟩ = WsJwt.VerifyResult.ok u := by
  rintro ⟨u, h⟩
  simp [WsJwt.verifyWsTokenClaims, WsJwt.jsOrStr, WsJwt.jsTruthy, RtcModel.jsFalsyStr] at h

/-- C6 amended: `verifyWsToken` draws the user id from the first truthy of
`sub`, `userId` and never consults `uid`: a token carrying only `uid` is a
hard fail with reason missing_user_identifier (while `verifyWsTokenStrict`
accepts it with userId = uid); a token with none of the three is a hard fail
with missing_user_identifier under both variants; and a token with a truthy
`sub` yields that value under both variants. -/
theorem C6_identity_extraction (u : String) (hu : u ≠ "") :
    (WsJwt.verifyWsTokenClaims ⟨none, none, some u⟩ =
        WsJwt.VerifyResult.fail "missing_user_identifier" ∧
      WsJwt.verifyWsTokenStrictClaims ⟨none, none, some u⟩ = WsJwt.VerifyResult.ok u) ∧
    (∀ c : WsJwt.Claims, c.sub = none → c.userId = none → c.uid = none →
      WsJwt.verifyWsTokenClaims c = WsJwt.VerifyResult.fail "missing_user_identifier" ∧
      WsJwt.verifyWsTokenStrictClaims c = WsJwt.VerifyResult.fail "missing_user_identifier") ∧
    (∀ c : WsJwt.Claims, c.sub = some u →
      WsJwt.verifyWsTokenClaims c = WsJwt.VerifyResult.ok u ∧
      WsJwt.verifyWsTokenStrictClaims c = WsJwt.VerifyResult.ok u) := by
  have hu' : u.isEmpty = false := strNonempty u hu
  refine ⟨⟨?_, ?_⟩, ?_, ?_⟩
  · simp [WsJwt.verifyWsTokenClaims, WsJwt.jsOrStr, WsJwt.jsTruthy, RtcModel.jsFalsyStr]
  · simp [WsJwt.verifyWsTokenStrictClaims, RtcModel.jsNullish, WsJwt.jsTruthy,
      RtcModel.jsFalsyStr, hu']
  · rintro ⟨s, ui, d⟩ rfl rfl rfl
    constructor
    · simp [WsJwt.verifyWsTokenClaims, WsJwt.jsOrStr, WsJwt.jsTruthy, RtcModel.jsFalsyStr]
    · simp [WsJwt.verifyWsTokenStrictClaims, RtcModel.jsNullish, WsJwt.jsTruthy,
        RtcModel.jsFalsyStr]
  · rintro ⟨s, ui, d⟩ rfl
    constructor
    · simp [WsJwt.verifyWsTokenClaims, WsJwt.jsOrStr, WsJwt.jsTruthy, RtcModel.jsFalsyStr, hu']
    · simp [WsJwt.verifyWsTokenStrictClaims, RtcModel.jsNullish, WsJwt.jsTruthy,
        RtcModel.jsFalsyStr, hu']

/-- Witness for C6_identity_extraction at the concrete uid value alice. -/
theorem C6_identity_extraction_witness :
    ("alice" : String) ≠ "" ∧
    ((WsJwt.verifyWsTokenClaims ⟨none, none, some "alice"⟩ =
        WsJwt.VerifyResult.fail "missing_user_identifier" ∧
      WsJwt.verifyWsTokenStrictClaims ⟨none, none, some "alice"⟩ =
        WsJwt.VerifyResult.ok "alice") ∧
    (∀ c : WsJwt.Claims, c.sub = none → c.userId = none → c.uid = none →
      WsJwt.verifyWsTokenClaims c = WsJwt.VerifyResult.fail "missing_user_identifier" ∧
      WsJwt.verifyWsTokenStrictClaims c = WsJwt.VerifyResult.fail "missing_user_identifier") ∧
    (∀ c : WsJwt.Claims, c.sub = some "alice" →
      WsJwt.verifyWsTokenClaims c = WsJwt.VerifyResult.ok "alice" ∧
      WsJwt.verifyWsTokenStrictClaims c = WsJwt.VerifyResult.ok "alice")) :=
  ⟨by decide, C6_identity_extraction "alice" (by decide)⟩

end ClaimSix

section ClaimFive

/-- C5 counterexample: the claim states admission requires an exact hostname
match or a single-level subdomain; the code's `endsWith` test also admits the
two-level subdomain a.b.app.example of the allowed hostname app.example. -/
theorem C5_multilevel_subdomain_admitted :
    UpgradeOrigin.isAllowedOrigin ["app.example".data] "a.b.app.example".data = true ∧
    ¬ UpgradeOrigin.ClaimAdmits ["app.example".data] "a.b.app.example".data := by
  refine ⟨by decide, ?_⟩
  rintro ⟨a, ha, h⟩
  simp only [List.mem_singleton] at ha
  subst ha
  rcases h with h | ⟨l, hne, hdot, heq⟩
  · exact absurd h (by decide)
  · have h2 := List.take_left l ('.' :: "app.example".data)
    rw [← heq] at h2
    have hlen : l.length = 3 := by
      have h3 := congrArg List.length heq
      simp only [List.length_append, List.length_cons, List.length_nil] at h3
      omega
    rw [hlen] at h2
    have hl : l = ['a', '.', 'b'] := by
      rw [← h2]; decide
    exact hdot (by rw [hl]; decide)

/-- C5 amended: in production mode with a non-wildcard allow-list and a
present Origin, the origin check admits the request if and only if the
Origin's hostname exactly equals an allowed hostname or ends with a dot
followed by an allowed hostname — i.e. it is a subdomain of any depth, not
only single-level; on mismatch the gate yields the forbidden outcome
(HTTP 403 and transport destroy). -/
theorem C5_origin_check (allowed : List (List Char)) (o : List Char)
    (hw : ['*'] ∉ allowed) (ho : o ≠ []) :
    UpgradeOrigin.originGate allowed o = UpgradeOrigin.UpgradeDecision.proceed ↔
      ∃ a ∈ allowed, o = a ∨ ∃ l, o = l ++ '.' :: a := by
  have key : UpgradeOrigin.isAllowedOrigin allowed o = true ↔
      ∃ a ∈ allowed, o = a ∨ ∃ l, o = l ++ '.' :: a := by
    unfold UpgradeOrigin.isAllowedOrigin UpgradeOrigin.allowsOrigin
    rw [List.any_eq_true]
    constructor
    · rintro ⟨a, ha, hao⟩
      refine ⟨a, ha, ?_⟩
      have hne : a ≠ ['*'] := fun h => hw (h ▸ ha)
      rw [Bool.or_eq_true, Bool.and_eq_true, Bool.or_eq_true] at hao
      rcases hao with h | ⟨_, h | h⟩
      · exact absurd (by simpa using h) hne
      · exact Or.inl (by simpa using h)
      · obtain ⟨t, ht⟩ := (suffix_exists_iff _ _).1 h
        exact Or.inr ⟨t, ht.symm⟩
    · rintro ⟨a, ha, h⟩
      refine ⟨a, ha, ?_⟩
      rw [Bool.or_eq_true, Bool.and_eq_true, Bool.or_eq_true]
      rcases h with rfl | ⟨l, rfl⟩
      · exact Or.inr ⟨by simp [ho], Or.inl (by simp)⟩
      · refine Or.inr ⟨by simp [ho], Or.inr ?_⟩
        exact (suffix_exists_iff _ _).2 ⟨l, rfl⟩
  unfold UpgradeOrigin.originGate
  rcases h : UpgradeOrigin.isAllowedOrigin allowed o with _ | _
  · rw [if_neg (by simp [h])]
    rw [← key, h]
    simp
  · rw [if_pos (by simp [h])]
    rw [← key, h]
    simp

/-- Witness for C5_origin_check: the allow-list app.example with the Origin
hostname sub.app.example. -/
theorem C5_origin_check_witness :
    (['*'] ∉ ["app.example".data]) ∧ "sub.app.example".data ≠ [] ∧
    (UpgradeOrigin.originGate ["app.example".data] "sub.app.example".data =
        UpgradeOrigin.UpgradeDecision.proceed ↔
      ∃ a ∈ ["app.example".data], "sub.app.example".data = a ∨
        ∃ l, "sub.app.example".data = l ++ '.' :: a) :=
  ⟨by decide, by decide, C5_origin_check _ _ (by decide) (by decide)⟩

end ClaimFive

section ClaimThree

/-- C3: on an update frame resolving to an existing room r: if baseVersion is
absent or equals r's current version, r's version increases by exactly 1, its
text becomes the string form of the payload text, and doc-updated with the
new version, text and author is delivered exactly once to every open member
of r (and to nobody else); otherwise only the sender receives
update-rejected with the current version and text, no broadcast occurs, and
the server state — in particular r's version and text — is unchanged. -/
theorem C3_update_branch (st : RtcModel.ServerState) (sref : Nat) (m : RtcModel.InMsg)
    (ws : RtcModel.Conn) (r : String) (d : RtcModel.RoomDoc)
    (ht : m.type_ = "update")
    (hws : RtcModel.lookupConn st.conns sref = some ws)
    (hopen : ws.isOpen = true)
    (hrid : RtcModel.jsNullish m.payloadRoomId ws.roomId = some r)
    (hr : r ≠ "")
    (hroom : RtcModel.lookupRoom st.rooms r = some d)
    (hnd : d.clients.Nodup) :
    ((m.baseVersion = none ∨ m.baseVersion = some d.version) →
      (RtcModel.handleMessage st sref m).1.conns = st.conns ∧
      RtcModel.lookupRoom (RtcModel.handleMessage st sref m).1.rooms r =
        some { version := d.version + 1, text := m.text.getD "", clients := d.clients } ∧
      (∀ ref ∈ d.clients, ∀ c, RtcModel.lookupConn st.conns ref = some c → c.isOpen = true →
        (RtcModel.handleMessage st sref m).2.count
          (ref, RtcModel.OutMsg.docUpdated r (d.version + 1) (m.text.getD "")
            (RtcModel.authorOf ws m)) = 1) ∧
      (∀ p ∈ (RtcModel.handleMessage st sref m).2, p.1 ∈ d.clients ∧
        p.2 = RtcModel.OutMsg.docUpdated r (d.version + 1) (m.text.getD "")
          (RtcModel.authorOf ws m))) ∧
    (∀ b, m.baseVersion = some b → b ≠ d.version →
      (RtcModel.handleMessage st sref m).1 = st ∧
      (RtcModel.handleMessage st sref m).2 =
        [(sref, RtcModel.OutMsg.updateRejected (some r) (some d.version) d.text)]) := by
  have hd : RtcModel.dispatch m.type_ = RtcModel.Branch.update := by rw [ht]; decide
  have hre : r.isEmpty = false := strNonempty r hr
  have hm : RtcModel.handleMessage st sref m = RtcModel.handleUpdate st sref m := by
    unfold RtcModel.handleMessage
    rw [hd]
  have hbody : RtcModel.handleUpdate st sref m =
      (if m.baseVersion = none ∨ m.baseVersion = some d.version then
        (RtcModel.ServerState.mk st.conns
            (RtcModel.setRoom st.rooms r
              (RtcModel.RoomDoc.mk (d.version + 1) (m.text.getD "") d.clients)),
          RtcModel.broadcastToRoom
            (RtcModel.ServerState.mk st.conns
              (RtcModel.setRoom st.rooms r
                (RtcModel.RoomDoc.mk (d.version + 1) (m.text.getD "") d.clients)))
            r (RtcModel.OutMsg.docUpdated r (d.version + 1) (m.text.getD "")
              (RtcModel.authorOf ws m)) none)
      else
        (st, RtcModel.sendToClient ws
          (RtcModel.OutMsg.updateRejected (some r) (some d.version) d.text))) := by
    unfold RtcModel.handleUpdate
    rw [hws]
    simp only [hrid, RtcModel.jsFalsyStr, hre, Bool.false_eq_true, if_false,
      RtcModel.getOrCreateRoom, hroom, Option.getD_some]
  have hroom1 : RtcModel.lookupRoom
      (RtcModel.setRoom st.rooms r
        (RtcModel.RoomDoc.mk (d.version + 1) (m.text.getD "") d.clients)) r =
      some (RtcModel.RoomDoc.mk (d.version + 1) (m.text.getD "") d.clients) := by
    apply RtcModel.lookupRoom_setRoom_self
    rw [hroom]
    rfl
  constructor
  · intro hb
    have hstate1 : (RtcModel.handleMessage st sref m).1 = RtcModel.ServerState.mk st.conns
        (RtcModel.setRoom st.rooms r
          (RtcModel.RoomDoc.mk (d.version + 1) (m.text.getD "") d.clients)) := by
      rw [hm, hbody, if_pos hb]
    have houts : (RtcModel.handleMessage st sref m).2 =
        d.clients.filterMap (fun ref =>
          if (none : Option Nat) == some ref then none
          else
            match RtcModel.lookupConn st.conns ref with
            | some c => if c.isOpen then some (ref,
                RtcModel.OutMsg.docUpdated r (d.version + 1) (m.text.getD "")
                  (RtcModel.authorOf ws m))
              else none
            | none => none) := by
      rw [hm, hbody, if_pos hb]
      exact RtcModel.broadcastToRoom_eq st.conns
        (RtcModel.setRoom st.rooms r
          (RtcModel.RoomDoc.mk (d.version + 1) (m.text.getD "") d.clients))
        r (RtcModel.OutMsg.docUpdated r (d.version + 1) (m.text.getD "")
          (RtcModel.authorOf ws m)) none
        (RtcModel.RoomDoc.mk (d.version + 1) (m.text.getD "") d.clients) hroom1
    refine ⟨by rw [hstate1], by rw [hstate1]; exact hroom1, ?_, ?_⟩
    · intro ref href c hc hco
      rw [houts]
      apply RtcModel.count_filterMap_eq_one _ _ hnd ref href
      · simp [hc, hco]
      · intro x hx hfx
        rcases hlc : RtcModel.lookupConn st.conns x with _ | c'
        · simp [hlc] at hfx
        · cases hio : c'.isOpen
          · simp [hlc, hio] at hfx
          · simp only [hlc, hio] at hfx
            simp at hfx
            exact hfx
    · intro p hp
      rw [houts] at hp
      obtain ⟨x, hx, hfx⟩ := List.mem_filterMap.1 hp
      rcases hlc : RtcModel.lookupConn st.conns x with _ | c'
      · simp [hlc] at hfx
      · cases hio : c'.isOpen
        · simp [hlc, hio] at hfx
        · simp only [hlc, hio] at hfx
          simp at hfx
          cases hfx
          exact ⟨hx, rfl⟩
  · intro b hb hbne
    have hneg : ¬ (m.baseVersion = none ∨ m.baseVersion = some d.version) := by
      rw [hb]
      simp [hbne]
    have hsref : ws.ref = sref := RtcModel.lookupConn_ref st.conns sref ws hws
    constructor
    · rw [hm, hbody, if_neg hneg]
    · rw [hm, hbody, if_neg hneg]
      unfold RtcModel.sendToClient
      rw [hopen]
      simp [hsref]

/-- Connection alice: open, member of room r. -/
def c3A : RtcModel.Conn :=
  { ref := 1, id := "a", userId := some "alice", roomId := some "r", isOpen := true,
    ip := "ip1", userAgent := "ua1", origin := "o1" }

/-- Connection bob: open, member of room r. -/
def c3B : RtcModel.Conn :=
  { ref := 2, id := "b", userId := some "bob", roomId := some "r", isOpen := true,
    ip := "ip2", userAgent := "ua2", origin := "o2" }

/-- A state with alice and bob in room r whose document is at version 0. -/
def c3St : RtcModel.ServerState :=
  { conns := [c3A, c3B], rooms := [("r", RtcModel.RoomDoc.mk 0 "" [1, 2])] }

/-- An update frame for room r with baseVersion 0 and text hi. -/
def c3Upd : RtcModel.InMsg :=
  { type_ := "update", payloadRoomId := some "r", payloadRoom := none, msgRoomId := none,
    payloadUserId := none, text := some "hi", baseVersion := some 0, msgTo := none,
    payloadTo := none, cursor := none, selection := none, sigPayload := "", raw := "" }

/-- Witness for C3_update_branch: alice updates room r at its current
version. -/
theorem C3_update_branch_witness :
    (c3Upd.type_ = "update" ∧
      RtcModel.lookupConn c3St.conns 1 = some c3A ∧
      c3A.isOpen = true ∧
      RtcModel.jsNullish c3Upd.payloadRoomId c3A.roomId = some "r" ∧
      ("r" : String) ≠ "" ∧
      RtcModel.lookupRoom c3St.rooms "r" = some (RtcModel.RoomDoc.mk 0 "" [1, 2]) ∧
      (RtcModel.RoomDoc.mk 0 "" [1, 2]).clients.Nodup) ∧
    (((c3Upd.baseVersion = none ∨
        c3Upd.baseVersion = some (RtcModel.RoomDoc.mk 0 "" [1, 2]).version) →
      (RtcModel.handleMessage c3St 1 c3Upd).1.conns = c3St.conns ∧
      RtcModel.lookupRoom (RtcModel.handleMessage c3St 1 c3Upd).1.rooms "r" =
        some { version := (RtcModel.RoomDoc.mk 0 "" [1, 2]).version + 1,
               text := c3Upd.text.getD "",
               clients := (RtcModel.RoomDoc.mk 0 "" [1, 2]).clients } ∧
      (∀ ref ∈ (RtcModel.RoomDoc.mk 0 "" [1, 2]).clients, ∀ c,
        RtcModel.lookupConn c3St.conns ref = some c → c.isOpen = true →
        (RtcModel.handleMessage c3St 1 c3Upd).2.count
          (ref, RtcModel.OutMsg.docUpdated "r" ((RtcModel.RoomDoc.mk 0 "" [1, 2]).version + 1)
            (c3Upd.text.getD "") (RtcModel.authorOf c3A c3Upd)) = 1) ∧
      (∀ p ∈ (RtcModel.handleMessage c3St 1 c3Upd).2,
        p.1 ∈ (RtcModel.RoomDoc.mk 0 "" [1, 2]).clients ∧
        p.2 = RtcModel.OutMsg.docUpdated "r" ((RtcModel.RoomDoc.mk 0 "" [1, 2]).version + 1)
          (c3Upd.text.getD "") (RtcModel.authorOf c3A c3Upd))) ∧
    (∀ b, c3Upd.baseVersion = some b → b ≠ (RtcModel.RoomDoc.mk 0 "" [1, 2]).version →
      (RtcModel.handleMessage c3St 1 c3Upd).1 = c3St ∧
      (RtcModel.handleMessage c3St 1 c3Upd).2 =
        [(1, RtcModel.OutMsg.updateRejected (some "r")
          (some (RtcModel.RoomDoc.mk 0 "" [1, 2]).version)
          (RtcModel.RoomDoc.mk 0 "" [1, 2]).text)])) :=
  ⟨⟨rfl, by decide, rfl, rfl, by decide, by decide, by decide⟩,
    C3_update_branch c3St 1 c3Upd c3A "r" (RtcModel.RoomDoc.mk 0 "" [1, 2])
      rfl (by decide) rfl rfl (by decide) (by decide) (by decide)⟩

end ClaimThree

section ClaimFour

/-- Sender of the C4 counterexample scenario. -/
def c4S : RtcModel.Conn :=
  { ref := 1, id := "s", userId := some "sid", roomId := some "r1", isOpen := true,
    ip := "ip1", userAgent := "ua1", origin := "o1" }

/-- A member of r1 whose userId is u. -/
def c4A : RtcModel.Conn :=
  { ref := 2, id := "a", userId := some "u", roomId := some "r1", isOpen := true,
    ip := "ip2", userAgent := "ua2", origin := "o2" }

/-- A member of r1 whose clientId is u. -/
def c4B : RtcModel.Conn :=
  { ref := 3, id := "u", userId := none, roomId := some "r1", isOpen := true,
    ip := "ip3", userAgent := "ua3", origin := "o3" }

/-- The C4 counterexample state: both c4A and c4B match the target id u. -/
def c4St : RtcModel.ServerState :=
  { conns := [c4S, c4A, c4B], rooms := [("r1", RtcModel.RoomDoc.mk 0 "" [1, 2, 3])] }

/-- An offer frame addressed to u. -/
def c4Offer : RtcModel.InMsg :=
  { type_ := "offer", payloadRoomId := none, payloadRoom := none, msgRoomId := none,
    payloadUserId := none, text := none, baseVersion := none, msgTo := some "u",
    payloadTo := none, cursor := none, selection := none, sigPayload := "sdp", raw := "" }

/-- C4 counterexample: connection c4B (ref 3) is open, in the sender's room,
and its clientId equals the target u, so the claim promises it exactly one
copy; but another member (c4A, whose userId is also u) precedes it in the
room's iteration order and the dispatcher delivers the single copy there, so
c4B receives no copy at all. -/
theorem C4_duplicate_target_misses_delivery :
    (RtcModel.handleMessage c4St 1 c4Offer).2 =
      [(2, RtcModel.OutMsg.signal "offer" "sid" "sdp" (some "u"))] ∧
    RtcModel.lookupConn c4St.conns 3 = some c4B ∧
    c4B.isOpen = true ∧ c4B.id = "u" ∧
    (3 : Nat) ∈ (RtcModel.RoomDoc.mk 0 "" [1, 2, 3]).clients ∧
    RtcModel.lookupRoom c4St.rooms "r1" = some (RtcModel.RoomDoc.mk 0 "" [1, 2, 3]) ∧
    (∀ p ∈ (RtcModel.handleMessage c4St 1 c4Offer).2, p.1 ≠ 3) := by
  decide

/-- C4 amended: for a frame of type offer, answer or ice-candidate carrying a
truthy to = u, if the sender's room has a unique member whose userId or
clientId equals u, that member's socket is open, and it is not the sender
itself, then it receives exactly one copy of the frame, stamped with
from = sender.userId if present else sender.clientId, the sender receives no
copy, nobody else receives anything, and the server state is unchanged.
(When several members match u, only the first in the members iteration order
is delivered to; when the first match is the sender itself, the sender
receives an echo.) -/
theorem C4_directed_signaling (st : RtcModel.ServerState) (sref : Nat) (m : RtcModel.InMsg)
    (ws : RtcModel.Conn) (rid : String) (room : RtcModel.RoomDoc) (u : String)
    (x : Nat) (xc : RtcModel.Conn)
    (ht : m.type_ = "offer" ∨ m.type_ = "answer" ∨ m.type_ = "ice-candidate")
    (hws : RtcModel.lookupConn st.conns sref = some ws)
    (hwr : ws.roomId = some rid) (hrne : rid ≠ "")
    (hroom : RtcModel.lookupRoom st.rooms rid = some room)
    (htold : RtcModel.jsNullish (RtcModel.jsNullish m.msgTo m.payloadTo) m.payloadTo = some u)
    (hu : u ≠ "")
    (hx : x ∈ room.clients)
    (hxc : RtcModel.lookupConn st.conns x = some xc)
    (hmatch : xc.userId = some u ∨ xc.id = u)
    (hxopen : xc.isOpen = true)
    (hxs : x ≠ sref)
    (huniq : ∀ y ∈ room.clients, ∀ c, RtcModel.lookupConn st.conns y = some c →
      (c.userId = some u ∨ c.id = u) → y = x) :
    (RtcModel.handleMessage st sref m).1 = st ∧
    (RtcModel.handleMessage st sref m).2 =
      [(x, RtcModel.OutMsg.signal m.type_ (ws.userId.getD ws.id) m.sigPayload (some u))] ∧
    (∀ p ∈ (RtcModel.handleMessage st sref m).2, p.1 ≠ sref) := by
  have hd : RtcModel.dispatch m.type_ = RtcModel.Branch.signaling := by
    rcases ht with h | h | h <;> rw [h] <;> decide
  have hxr : xc.ref = x := RtcModel.lookupConn_ref st.conns x xc hxc
  have hfi : RtcModel.findInClients st room.clients u = some xc := by
    unfold RtcModel.findInClients
    apply RtcModel.findSome?_eq_of_unique _ _ x xc hx
    · rw [hxc]
      rcases hmatch with h | h <;> simp [h]
    · intro y hy hsy
      rcases hlc : RtcModel.lookupConn st.conns y with _ | c'
      · rw [hlc] at hsy
        simp at hsy
      · rw [hlc] at hsy
        refine huniq y hy c' hlc ?_
        by_cases hcu : c'.userId = some u ∨ c'.id = u
        · exact hcu
        · push_neg at hcu
          simp [hcu.1, hcu.2] at hsy
  have hbody : RtcModel.handleMessage st sref m =
      (st, [(x, RtcModel.OutMsg.signal m.type_ (ws.userId.getD ws.id) m.sigPayload (some u))]) := by
    unfold RtcModel.handleMessage
    rw [hd]
    unfold RtcModel.handleSignaling
    rw [hws]
    simp only [htold, hwr, RtcModel.jsFalsyStr, strNonempty u hu, strNonempty rid hrne,
      Option.getD_some, Bool.false_eq_true, if_false, hroom, hfi, hxopen, if_true]
    unfold RtcModel.sendToClient
    rw [hxopen, hxr]
    simp
  rw [hbody]
  refine ⟨rfl, rfl, ?_⟩
  intro p hp
  simp only [List.mem_singleton] at hp
  rw [hp]
  exact hxs

/-- Target of the C4 witness scenario. -/
def c4T : RtcModel.Conn :=
  { ref := 2, id := "t", userId := some "tuid", roomId := some "r1", isOpen := true,
    ip := "ip2", userAgent := "ua2", origin := "o2" }

/-- The C4 witness state: sender and a unique matching target in room r1. -/
def c4WSt : RtcModel.ServerState :=
  { conns := [c4S, c4T], rooms := [("r1", RtcModel.RoomDoc.mk 0 "" [1, 2])] }

/-- An offer frame addressed to tuid. -/
def c4WOffer : RtcModel.InMsg :=
  { type_ := "offer", payloadRoomId := none, payloadRoom := none, msgRoomId := none,
    payloadUserId := none, text := none, baseVersion := none, msgTo := some "tuid",
    payloadTo := none, cursor := none, selection := none, sigPayload := "sdp", raw := "" }

/-- Witness for C4_directed_signaling: a unique open target in the sender's
room receives exactly one stamped copy. -/
theorem C4_directed_signaling_witness :
    ((c4WOffer.type_ = "offer" ∨ c4WOffer.type_ = "answer" ∨
        c4WOffer.type_ = "ice-candidate") ∧
      RtcModel.lookupConn c4WSt.conns 1 = some c4S ∧
      c4S.roomId = some "r1" ∧ ("r1" : String) ≠ "" ∧
      RtcModel.lookupRoom c4WSt.rooms "r1" = some (RtcModel.RoomDoc.mk 0 "" [1, 2]) ∧
      RtcModel.jsNullish (RtcModel.jsNullish c4WOffer.msgTo c4WOffer.payloadTo)
        c4WOffer.payloadTo = some "tuid" ∧
      ("tuid" : String) ≠ "" ∧
      (2 : Nat) ∈ (RtcModel.RoomDoc.mk 0 "" [1, 2]).clients ∧
      RtcModel.lookupConn c4WSt.conns 2 = some c4T ∧
      (c4T.userId = some "tuid" ∨ c4T.id = "tuid") ∧
      c4T.isOpen = true ∧ (2 : Nat) ≠ 1 ∧
      (∀ y ∈ (RtcModel.RoomDoc.mk 0 "" [1, 2]).clients, ∀ c,
        RtcModel.lookupConn c4WSt.conns y = some c →
        (c.userId = some "tuid" ∨ c.id = "tuid") → y = 2)) ∧
    ((RtcModel.handleMessage c4WSt 1 c4WOffer).1 = c4WSt ∧
      (RtcModel.handleMessage c4WSt 1 c4WOffer).2 =
        [(2, RtcModel.OutMsg.signal "offer" (c4S.userId.getD c4S.id)
          c4WOffer.sigPayload (some "tuid"))] ∧
      (∀ p ∈ (RtcModel.handleMessage c4WSt 1 c4WOffer).2, p.1 ≠ 1)) :=
  ⟨⟨by decide, by decide, rfl, by decide, by decide, rfl, by decide, by decide, by decide,
      by decide, rfl, by decide, by decide⟩,
    C4_directed_signaling c4WSt 1 c4WOffer c4S "r1" (RtcModel.RoomDoc.mk 0 "" [1, 2]) "tuid"
      2 c4T (by decide) (by decide) rfl (by decide) (by decide) rfl (by decide) (by decide)
      (by decide) (by decide) rfl (by decide) (by decide)⟩

end ClaimFour

section ClaimNine

/-- First of two open connections in room r sharing userId u. -/
def c9A : RtcModel.Conn :=
  { ref := 1, id := "a", userId := some "u", roomId := some "r", isOpen := true,
    ip := "ip1", userAgent := "ua1", origin := "o1" }

/-- Second of two open connections in room r sharing userId u. -/
def c9B : RtcModel.Conn :=
  { ref := 2, id := "b", userId := some "u", roomId := some "r", isOpen := true,
    ip := "ip2", userAgent := "ua2", origin := "o2" }

/-- The C9 counterexample state: both connections share userId u in room r. -/
def c9St : RtcModel.ServerState :=
  { conns := [c9A, c9B], rooms := [("r", RtcModel.RoomDoc.mk 0 "" [1, 2])] }

/-- C9 counterexample: with two open connections in r sharing userId u, each
recipient's frame carries count = 0, although the number of peer entries
other than the recipient's own is 1 — the code filters by descriptor id, so
both entries (the recipient's and the other connection's) are excluded.  In
the wsHelpers variant the two connections moreover collapse into a single
peers entry, against the claim's assertion that each contributes its own. -/
theorem C9_shared_userId_count_zero :
    RtcModel.broadcastPeersUpdate c9St (some "r") =
      [(1, RtcModel.OutMsg.peersUpdated [RtcModel.mkPeer c9A, RtcModel.mkPeer c9B] 0 2),
       (2, RtcModel.OutMsg.peersUpdated [RtcModel.mkPeer c9A, RtcModel.mkPeer c9B] 0 2)] ∧
    (RtcModel.getPeers c9St (some "r")).length = 2 ∧
    (2 : Nat) - 1 ≠ 0 ∧
    RtcModel.getPeersHelpers c9St (some "r") = [RtcModel.mkPeer c9A] := by
  decide

/-- C9 amended: a peers-updated frame emitted for a truthy room r is sent to
exactly the open connections whose currentRoomId is r; its peers list holds
one descriptor per such connection (in the wsServer variant — the wsHelpers
variant collapses connections sharing a peer id into one entry);
total = peers.length; and count is the number of peer entries whose id
(userId ?? clientId) differs from the recipient's id — which equals the
number of peers excluding the recipient only when no two such connections
share an id. -/
theorem C9_peers_update_for_room (st : RtcModel.ServerState) (r : String) (hr : r ≠ "") :
    (∀ c ∈ st.conns, c.isOpen = true → c.roomId = some r →
      (c.ref, RtcModel.OutMsg.peersUpdated (RtcModel.getPeers st (some r))
        ((RtcModel.getPeers st (some r)).filter
          (fun p => p.id ≠ RtcModel.connPeerId c)).length
        (RtcModel.getPeers st (some r)).length) ∈
        RtcModel.broadcastPeersUpdate st (some r)) ∧
    (∀ c ∈ st.conns, c.isOpen = true → c.roomId = some r →
      RtcModel.mkPeer c ∈ RtcModel.getPeers st (some r)) ∧
    (∀ p ∈ RtcModel.broadcastPeersUpdate st (some r),
      ∃ c ∈ st.conns, c.ref = p.1 ∧ c.isOpen = true ∧ c.roomId = some r) := by
  have hrf : ∀ c : RtcModel.Conn, RtcModel.roomFilter (some r) c = (c.roomId == some r) := by
    intro c
    unfold RtcModel.roomFilter
    simp [RtcModel.jsFalsyStr, strNonempty r hr]
  refine ⟨?_, ?_, ?_⟩
  · intro c hc hco hcr
    unfold RtcModel.broadcastPeersUpdate
    refine List.mem_filterMap.2 ⟨c, hc, ?_⟩
    rw [hrf c, hco, hcr]
    simp
  · intro c hc hco hcr
    unfold RtcModel.getPeers
    refine List.mem_filterMap.2 ⟨c, hc, ?_⟩
    rw [hrf c, hco, hcr]
    simp
  · intro p hp
    unfold RtcModel.broadcastPeersUpdate at hp
    obtain ⟨c, hc, hfc⟩ := List.mem_filterMap.1 hp
    rw [hrf c] at hfc
    cases hco : c.isOpen
    · rw [hco] at hfc
      simp at hfc
    · rw [hco] at hfc
      cases hcr : (c.roomId == some r)
      · rw [hcr] at hfc
        simp at hfc
      · rw [hcr] at hfc
        simp at hfc
        cases hfc
        exact ⟨c, hc, rfl, hco, by simpa using hcr⟩

/-- Witness for C9_peers_update_for_room on the shared-userId state. -/
theorem C9_peers_update_for_room_witness :
    ("r" : String) ≠ "" ∧
    ((∀ c ∈ c9St.conns, c.isOpen = true → c.roomId = some "r" →
      (c.ref, RtcModel.OutMsg.peersUpdated (RtcModel.getPeers c9St (some "r"))
        ((RtcModel.getPeers c9St (some "r")).filter
          (fun p => p.id ≠ RtcModel.connPeerId c)).length
        (RtcModel.getPeers c9St (some "r")).length) ∈
        RtcModel.broadcastPeersUpdate c9St (some "r")) ∧
    (∀ c ∈ c9St.conns, c.isOpen = true → c.roomId = some "r" →
      RtcModel.mkPeer c ∈ RtcModel.getPeers c9St (some "r")) ∧
    (∀ p ∈ RtcModel.broadcastPeersUpdate c9St (some "r"),
      ∃ c ∈ c9St.conns, c.ref = p.1 ∧ c.isOpen = true ∧ c.roomId = some "r")) :=
  ⟨by decide, C9_peers_update_for_room c9St "r" (by decide)⟩

end ClaimNine

section ClaimTen

/-- C10: when a presence update is triggered with a null (or otherwise falsy)
room — initial connect, a join from the unjoined state reporting the old
room, or a leave/disconnect while unjoined — the room filter is disabled:
the peers-updated frame is sent to every open connection regardless of room,
and its peers list contains the full descriptor (id, ip, user agent, origin,
roomId) of every open connection regardless of room. -/
theorem C10_null_room_broadcast_is_global (st : RtcModel.ServerState) :
    (∀ c ∈ st.conns, c.isOpen = true →
      (c.ref, RtcModel.OutMsg.peersUpdated (RtcModel.getPeers st none)
        ((RtcModel.getPeers st none).filter
          (fun p => p.id ≠ RtcModel.connPeerId c)).length
        (RtcModel.getPeers st none).length) ∈
        RtcModel.broadcastPeersUpdate st none) ∧
    (∀ c ∈ st.conns, c.isOpen = true →
      RtcModel.mkPeer c ∈ RtcModel.getPeers st none) := by
  have hrf : ∀ c : RtcModel.Conn, RtcModel.roomFilter none c = true := by
    intro c
    unfold RtcModel.roomFilter
    simp [RtcModel.jsFalsyStr]
  constructor
  · intro c hc hco
    unfold RtcModel.broadcastPeersUpdate
    refine List.mem_filterMap.2 ⟨c, hc, ?_⟩
    rw [hrf c, hco]
    simp
  · intro c hc hco
    unfold RtcModel.getPeers
    refine List.mem_filterMap.2 ⟨c, hc, ?_⟩
    rw [hrf c, hco]
    simp

/-- A connection in a different room, used by the C10 witness. -/
def c10C : RtcModel.Conn :=
  { ref := 3, id := "c", userId := some "carol", roomId := some "r2", isOpen := true,
    ip := "ip3", userAgent := "ua3", origin := "o3" }

/-- An unjoined connection, used by the C10 witness. -/
def c10D : RtcModel.Conn :=
  { ref := 4, id := "d", userId := none, roomId := none, isOpen := true,
    ip := "ip4", userAgent := "ua4", origin := "o4" }

/-- The C10 witness state: connections spread over room r, room r2 and the
unjoined state. -/
def c10St : RtcModel.ServerState :=
  { conns := [c9A, c10C, c10D],
    rooms := [("r", RtcModel.RoomDoc.mk 0 "" [1]), ("r2", RtcModel.RoomDoc.mk 0 "" [3])] }

/-- Witness for C10_null_room_broadcast_is_global on a state spanning two
rooms and an unjoined connection. -/
theorem C10_null_room_broadcast_is_global_witness :
    (∀ c ∈ c10St.conns, c.isOpen = true →
      (c.ref, RtcModel.OutMsg.peersUpdated (RtcModel.getPeers c10St none)
        ((RtcModel.getPeers c10St none).filter
          (fun p => p.id ≠ RtcModel.connPeerId c)).length
        (RtcModel.getPeers c10St none).length) ∈
        RtcModel.broadcastPeersUpdate c10St none) ∧
    (∀ c ∈ c10St.conns, c.isOpen = true →
      RtcModel.mkPeer c ∈ RtcModel.getPeers c10St none) :=
  C10_null_room_broadcast_is_global c10St

end ClaimTen

section ClaimTwo

/-- Sender of the C2 scenario, in room r1. -/
def c2S : RtcModel.Conn :=
  { ref := 1, id := "s", userId := some "sid", roomId := some "r1", isOpen := true,
    ip := "ip1", userAgent := "ua1", origin := "o1" }

/-- A peer of the C2 scenario, open in the same room r1. -/
def c2P : RtcModel.Conn :=
  { ref := 2, id := "p", userId := some "pid", roomId := some "r1", isOpen := true,
    ip := "ip2", userAgent := "ua2", origin := "o2" }

/-- The C2 counterexample state. -/
def c2St : RtcModel.ServerState :=
  { conns := [c2S, c2P], rooms := [("r1", RtcModel.RoomDoc.mk 0 "" [1, 2])] }

/-- An inbound frame with an unrecognized type. -/
def c2Unknown : RtcModel.InMsg :=
  { type_ := "frobnicate", payloadRoomId := none, payloadRoom := none, msgRoomId := none,
    payloadUserId := none, text := none, baseVersion := none, msgTo := none,
    payloadTo := none, cursor := none, selection := none, sigPayload := "",
    raw := "RAWJSON" }

/-- C2 counterexample: on a frame of unrecognized type frobnicate the
dispatcher falls into the generic-broadcast branch: the sender receives no
error frame at all (no unknown_type reply) and the other open connection in
its room receives a copy of the raw message — the exact opposite of the
claimed reply-to-sender-only behavior. -/
theorem C2_unknown_type_is_broadcast :
    RtcModel.dispatch "frobnicate" = RtcModel.Branch.fallback ∧
    (RtcModel.handleMessage c2St 1 c2Unknown).1 = c2St ∧
    (RtcModel.handleMessage c2St 1 c2Unknown).2 = [(2, RtcModel.OutMsg.echo "RAWJSON")] := by
  decide

/-- C2 amended: a parsed frame whose type is not one of the recognized
inbound types is treated as a generic message: the server state is unchanged
and the raw message is re-broadcast to exactly those open connections other
than the sender that either share the sender's (truthy) room or for which at
least one of the two room fields is falsy; the sender gets no reply and no
error frame is produced.  (Only the legacy connectionHandler replies with
unknown_type.) -/
theorem C2_fallback_generic_broadcast (st : RtcModel.ServerState) (sref : Nat)
    (m : RtcModel.InMsg) (ws : RtcModel.Conn)
    (hd : RtcModel.dispatch m.type_ = RtcModel.Branch.fallback)
    (hws : RtcModel.lookupConn st.conns sref = some ws) :
    (RtcModel.handleMessage st sref m).1 = st ∧
    (∀ p, p ∈ (RtcModel.handleMessage st sref m).2 ↔
      ∃ c ∈ st.conns, (c.ref, RtcModel.OutMsg.echo m.raw) = p ∧ c.ref ≠ sref ∧
        c.isOpen = true ∧
        (RtcModel.jsFalsyStr ws.roomId = false → RtcModel.jsFalsyStr c.roomId = false →
          c.roomId = ws.roomId)) := by
  have hm : RtcModel.handleMessage st sref m = (st, RtcModel.handleFallback st sref m.raw) := by
    unfold RtcModel.handleMessage
    rw [hd]
  have hfb : RtcModel.handleFallback st sref m.raw =
      st.conns.filterMap (fun c =>
        if c.ref == sref then none
        else if !c.isOpen then none
        else if !(RtcModel.jsFalsyStr ws.roomId) && !(RtcModel.jsFalsyStr c.roomId) then
          (if c.roomId == ws.roomId then some (c.ref, RtcModel.OutMsg.echo m.raw) else none)
        else some (c.ref, RtcModel.OutMsg.echo m.raw)) := by
    unfold RtcModel.handleFallback
    rw [hws]
  have hchar : ∀ (c : RtcModel.Conn) (p : Nat × RtcModel.OutMsg),
      ((if c.ref == sref then none
        else if !c.isOpen then none
        else if !(RtcModel.jsFalsyStr ws.roomId) && !(RtcModel.jsFalsyStr c.roomId) then
          (if c.roomId == ws.roomId then some (c.ref, RtcModel.OutMsg.echo m.raw) else none)
        else some (c.ref, RtcModel.OutMsg.echo m.raw)) = some p) ↔
      ((c.ref, RtcModel.OutMsg.echo m.raw) = p ∧ c.ref ≠ sref ∧ c.isOpen = true ∧
        (RtcModel.jsFalsyStr ws.roomId = false → RtcModel.jsFalsyStr c.roomId = false →
          c.roomId = ws.roomId)) := by
    intro c p
    by_cases h1 : c.ref = sref
    · simp [h1]
    · cases h2 : c.isOpen <;> cases hb1 : RtcModel.jsFalsyStr ws.roomId <;>
        cases hb2 : RtcModel.jsFalsyStr c.roomId <;> by_cases he : c.roomId = ws.roomId <;>
        simp [h1, h2, hb1, hb2, he]
  rw [hm]
  refine ⟨rfl, ?_⟩
  intro p
  rw [hfb]
  constructor
  · intro hp
    obtain ⟨c, hc, hfc⟩ := List.mem_filterMap.1 hp
    exact ⟨c, hc, (hchar c p).1 hfc⟩
  · rintro ⟨c, hc, hcond⟩
    exact List.mem_filterMap.2 ⟨c, hc, (hchar c p).2 hcond⟩

/-- Witness for C2_fallback_generic_broadcast on the two-connection state. -/
theorem C2_fallback_generic_broadcast_witness :
    RtcModel.dispatch c2Unknown.type_ = RtcModel.Branch.fallback ∧
    RtcModel.lookupConn c2St.conns 1 = some c2S ∧
    ((RtcModel.handleMessage c2St 1 c2Unknown).1 = c2St ∧
      (∀ p, p ∈ (RtcModel.handleMessage c2St 1 c2Unknown).2 ↔
        ∃ c ∈ c2St.conns, (c.ref, RtcModel.OutMsg.echo c2Unknown.raw) = p ∧ c.ref ≠ 1 ∧
          c.isOpen = true ∧
          (RtcModel.jsFalsyStr c2S.roomId = false → RtcModel.jsFalsyStr c.roomId = false →
            c.roomId = c2S.roomId))) :=
  ⟨by decide, by decide,
    C2_fallback_generic_broadcast c2St 1 c2Unknown c2S (by decide) (by decide)⟩

end ClaimTwo

section ClaimSeven

/-- The single connection of the C7 counterexample. -/
def c7A : RtcModel.Conn :=
  { ref := 1, id := "cA", userId := some "ua", roomId := some "r", isOpen := true,
    ip := "ip1", userAgent := "ua1", origin := "o1" }

/-- A second connection from another client. -/
def c7B : RtcModel.Conn :=
  { ref := 2, id := "cB", userId := some "ub", roomId := some "r", isOpen := true,
    ip := "ip2", userAgent := "ua2", origin := "o2" }

/-- The C7 state. -/
def c7St : RtcModel.ServerState :=
  { conns := [c7A, c7B], rooms := [("r", RtcModel.RoomDoc.mk 0 "" [1, 2])] }

/-- A gate state in which client cA has exhausted its 100 points. -/
def c7Gate : MsgGate.GateState := { limiter := [("cA", 100)], rates := [("cA", 100)] }

/-- A well-formed inbound frame (a get-peers request). -/
def c7Msg : RtcModel.InMsg :=
  { type_ := "get-peers", payloadRoomId := none, payloadRoom := none, msgRoomId := none,
    payloadUserId := none, text := none, baseVersion := none, msgTo := none,
    payloadTo := none, cursor := none, selection := none, sigPayload := "", raw := "" }

/-- The raw frame carrying c7Msg. -/
def c7Raw : MsgGate.RawFrame := { bytes := 20, parsed := some c7Msg }

/-- C7 counterexample: the breach reply carries the prose error text and a
retryAfter value, but no field equal to rate_limited — the claimed reason
string never appears on the wire. -/
theorem C7_no_rate_limited_reason :
    (MsgGate.onFrame RtcModel.handleMessage c7St c7Gate 1 c7Raw 0).2.2 =
      [MsgGate.GateOut.rateLimited 1 (MsgGate.mkRateLimitErrorFrame 0)] ∧
    (MsgGate.mkRateLimitErrorFrame 0).error =
      "Rate limit exceeded. Please try again later." ∧
    (MsgGate.mkRateLimitErrorFrame 0).error ≠ "rate_limited" ∧
    (MsgGate.mkRateLimitErrorFrame 0).type_ ≠ "rate_limited" ∧
    (MsgGate.mkRateLimitErrorFrame 0).retryAfter = 60 := by
  decide

/-- C7 amended: when a clientId's token bucket (capacity 100 per 10-second
window, block 60 s) is exhausted, every further frame from that client
during the window yields exactly one error frame to that sender carrying the
prose error text and a retryAfter value (not a rate_limited reason), the
frame is not dispatched, and neither the server state nor the limiter state
changes — for any dispatch function; a frame from any client whose bucket is
not exhausted is dispatched normally in the same window. -/
theorem C7_rate_limit_gate
    (dispatch : RtcModel.ServerState → Nat → RtcModel.InMsg →
      RtcModel.ServerState × List (Nat × RtcModel.OutMsg))
    (st : RtcModel.ServerState) (g : MsgGate.GateState) (sref : Nat) (ws : RtcModel.Conn)
    (raw : MsgGate.RawFrame) (ms : Nat)
    (hws : RtcModel.lookupConn st.conns sref = some ws)
    (hparse : (MsgGate.safeParse MsgGate.defaultMaxSize raw).isSome = true)
    (hblocked : ¬ (MsgGate.mapGet g.limiter ws.id < MsgGate.points)) :
    MsgGate.onFrame dispatch st g sref raw ms =
      (st, g, [MsgGate.GateOut.rateLimited sref (MsgGate.mkRateLimitErrorFrame ms)]) ∧
    (∀ (bref : Nat) (bc : RtcModel.Conn) (braw : MsgGate.RawFrame) (bm : RtcModel.InMsg),
      RtcModel.lookupConn st.conns bref = some bc →
      MsgGate.safeParse MsgGate.defaultMaxSize braw = some bm →
      MsgGate.mapGet g.limiter bc.id < MsgGate.points →
      (MsgGate.onFrame dispatch st g bref braw ms).1 = (dispatch st bref bm).1 ∧
      (MsgGate.onFrame dispatch st g bref braw ms).2.2 =
        (dispatch st bref bm).2.map (fun p => MsgGate.GateOut.frame p.1 p.2)) := by
  constructor
  · obtain ⟨m, hm⟩ := Option.isSome_iff_exists.1 hparse
    unfold MsgGate.onFrame
    rw [hws, hm]
    dsimp only
    rw [if_neg hblocked]
  · intro bref bc braw bm hbc hbp hbok
    unfold MsgGate.onFrame
    rw [hbc, hbp]
    dsimp only
    rw [if_pos hbok]
    exact ⟨rfl, rfl⟩

/-- Witness for C7_rate_limit_gate: client cA is blocked while client cB's
get-peers frame is dispatched normally. -/
theorem C7_rate_limit_gate_witness :
    RtcModel.lookupConn c7St.conns 1 = some c7A ∧
    (MsgGate.safeParse MsgGate.defaultMaxSize c7Raw).isSome = true ∧
    ¬ (MsgGate.mapGet c7Gate.limiter c7A.id < MsgGate.points) ∧
    (MsgGate.onFrame RtcModel.handleMessage c7St c7Gate 1 c7Raw 7500 =
      (c7St, c7Gate, [MsgGate.GateOut.rateLimited 1 (MsgGate.mkRateLimitErrorFrame 7500)]) ∧
    (∀ (bref : Nat) (bc : RtcModel.Conn) (braw : MsgGate.RawFrame) (bm : RtcModel.InMsg),
      RtcModel.lookupConn c7St.conns bref = some bc →
      MsgGate.safeParse MsgGate.defaultMaxSize braw = some bm →
      MsgGate.mapGet c7Gate.limiter bc.id < MsgGate.points →
      (MsgGate.onFrame RtcModel.handleMessage c7St c7Gate bref braw 7500).1 =
        (RtcModel.handleMessage c7St bref bm).1 ∧
      (MsgGate.onFrame RtcModel.handleMessage c7St c7Gate bref braw 7500).2.2 =
        (RtcModel.handleMessage c7St bref bm).2.map
          (fun p => MsgGate.GateOut.frame p.1 p.2))) :=
  ⟨by decide, by decide, by decide,
    C7_rate_limit_gate RtcModel.handleMessage c7St c7Gate 1 c7A c7Raw 7500
      (by decide) (by decide) (by decide)⟩

end ClaimSeven

section ClaimEight

/-- The connection of the C8 scenario. -/
def c8A : RtcModel.Conn :=
  { ref := 1, id := "c8", userId := some "u8", roomId := some "r", isOpen := true,
    ip := "ip1", userAgent := "ua1", origin := "o1" }

/-- The C8 state. -/
def c8St : RtcModel.ServerState :=
  { conns := [c8A], rooms := [("r", RtcModel.RoomDoc.mk 0 "" [1])] }

/-- A fresh gate state. -/
def c8Gate : MsgGate.GateState := { limiter := [], rates := [] }

/-- An oversize frame: 70000 bytes of syntactically valid JSON. -/
def c8Raw : MsgGate.RawFrame := { bytes := 70000, parsed := some c2Unknown }

/-- C8 counterexample: an oversize frame is rejected by safeParse, but the
reply is the generic error frame with payload message Error processing
message — the claimed invalid_json reason never appears (only the legacy
connectionHandler replies invalid_json). -/
theorem C8_oversize_not_invalid_json :
    MsgGate.safeParse MsgGate.defaultMaxSize c8Raw = none ∧
    (MsgGate.onFrame RtcModel.handleMessage c8St c8Gate 1 c8Raw 0).2.2 =
      [MsgGate.GateOut.frame 1 (RtcModel.OutMsg.errorMsg "Error processing message")] ∧
    ("Error processing message" : String) ≠ "invalid_json" := by
  decide

/-- C8 amended: an inbound frame that exceeds 65536 bytes or fails JSON
parsing (or does not parse to an object) makes the handler reply to the
sender with a single generic error frame whose payload message is Error
processing message — not an invalid_json reason — and nothing else happens:
the server state, the limiter and the analytics map are unchanged, no other
connection receives anything, and no close is initiated; this holds for any
dispatch function. -/
theorem C8_invalid_frame_generic_error
    (dispatch : RtcModel.ServerState → Nat → RtcModel.InMsg →
      RtcModel.ServerState × List (Nat × RtcModel.OutMsg))
    (st : RtcModel.ServerState) (g : MsgGate.GateState) (sref : Nat) (ws : RtcModel.Conn)
    (raw : MsgGate.RawFrame) (ms : Nat)
    (hws : RtcModel.lookupConn st.conns sref = some ws)
    (hopen : ws.isOpen = true)
    (hbad : raw.bytes > MsgGate.defaultMaxSize ∨ raw.parsed = none) :
    MsgGate.onFrame dispatch st g sref raw ms =
      (st, g, [MsgGate.GateOut.frame sref (RtcModel.OutMsg.errorMsg "Error processing message")]) := by
  have hsp : MsgGate.safeParse MsgGate.defaultMaxSize raw = none := by
    unfold MsgGate.safeParse
    rcases hbad with h | h
    · rw [if_pos h]
    · rw [h]
      split <;> rfl
  have hsref : ws.ref = sref := RtcModel.lookupConn_ref st.conns sref ws hws
  unfold MsgGate.onFrame
  rw [hws, hsp]
  dsimp only
  unfold RtcModel.sendToClient
  rw [hopen]
  simp [hsref]

/-- Witness for C8_invalid_frame_generic_error on the oversize frame. -/
theorem C8_invalid_frame_generic_error_witness :
    RtcModel.lookupConn c8St.conns 1 = some c8A ∧
    c8A.isOpen = true ∧
    (c8Raw.bytes > MsgGate.defaultMaxSize ∨ c8Raw.parsed = none) ∧
    MsgGate.onFrame RtcModel.handleMessage c8St c8Gate 1 c8Raw 0 =
      (c8St, c8Gate, [MsgGate.GateOut.frame 1
        (RtcModel.OutMsg.errorMsg "Error processing message")]) :=
  ⟨by decide, rfl, by decide,
    C8_invalid_frame_generic_error RtcModel.handleMessage c8St c8Gate 1 c8A c8Raw 0
      (by decide) rfl (by decide)⟩

end ClaimEight
